import Mathlib

/-!
Verification development for the LibSys repository.

The repository snapshot contains the React frontend
(`src/frontend/src/...` and the unnamed page/component sources).  The
backend Loan Lifecycle Engine described by the specification (FastAPI
service with the checkout / return / renewal operations) is not part of
the snapshot, so the engine operations below are modelled from the
specification's algorithm descriptions, while every frontend definition
is a direct shallow embedding of the TypeScript source.

Conventions: timestamps are integers (an abstract time unit); a
configuration records the length of a day in that unit; monetary values
are integers counting cents, matching the spec's demand for exact
fixed-point arithmetic.
-/

namespace LibSys

/-! ## Frontend data model (src/frontend/src/types/index.ts) -/

/-- The frontend `Book` interface (types/index.ts lines 17-25).
`available_copies` is an optional field there, hence `Option Int`. -/
structure Book where
  id : Nat
  title : String
  author : String
  isbn : String
  total_copies : Int
  available_copies : Option Int
deriving Repr, DecidableEq

/-- The frontend `CreateBookData` interface (types/index.ts lines 27-32). -/
structure CreateBookData where
  title : String
  author : String
  isbn : String
  total_copies : Int
deriving Repr, DecidableEq

/-- The frontend `User` interface (types/index.ts lines 1-9), restricted to
the fields the embedded code reads. -/
structure User where
  id : Nat
  name : String
  email : String
deriving Repr, DecidableEq

/-- The frontend `Loan` interface (types/index.ts lines 34-46), restricted to
the fields the embedded code reads.  `status` arrives from the server as one
of the strings "active", "returned", "overdue". -/
structure Loan where
  id : Nat
  user_id : Nat
  book_id : Nat
  expected_return_date : String
  return_date : Option String
  status : String
  fine_amount : Option Int
deriving Repr, DecidableEq

/-- The user's session role (`'admin' | 'librarian' | 'user'`). -/
inductive Role
  | admin
  | librarian
  | user
deriving Repr, DecidableEq

/-- The expression `book.available_copies ?? book.total_copies`, which is the
availability value every frontend site uses (Books page stock column and
status badge, Dashboard recent-books table, and the new-loan book picker). -/
def effectiveAvailable (b : Book) : Int :=
  b.available_copies.getD b.total_copies

/-- From src/unnamed/part_002 (BooksPage) `getStatusBadge`: a success
"Available" badge when `(book.available_copies ?? book.total_copies) > 0`,
otherwise a warning "Borrowed" badge. -/
def getStatusBadge (b : Book) : String :=
  if 0 < effectiveAvailable b then "Available" else "Borrowed"

/-- From src/unnamed/part_004 (DashboardPage) `getStatusBadge`, which takes
the two translated labels as arguments and picks by the same test. -/
def getStatusBadgeLabelled (b : Book) (availableLabel borrowedLabel : String) : String :=
  if 0 < effectiveAvailable b then availableLabel else borrowedLabel

/-- The Stock column of the Books page and the Dashboard recent-books table
both render `book.available_copies ?? book.total_copies`. -/
def stockColumn (b : Book) : Int :=
  effectiveAvailable b

/-- From src/unnamed/part_002 `handleAddBook`: the book constructed for the
list, `{ ...formData, id: books.length + 1, available_copies: formData.total_copies }`. -/
def handleAddBookNewBook (books : List Book) (formData : CreateBookData) : Book :=
  { id := books.length + 1
    title := formData.title
    author := formData.author
    isbn := formData.isbn
    total_copies := formData.total_copies
    available_copies := some formData.total_copies }

/-- From src/unnamed/part_002 `handleAddBook`: `setBooks([...books, newBook])`. -/
def handleAddBook (books : List Book) (formData : CreateBookData) : List Book :=
  books ++ [handleAddBookNewBook books formData]

/-- From src/frontend/src/pages/Loans/index.tsx `loadBooks` (the
authenticated LoansPage): the new-loan book picker keeps exactly the books
with `(book.available_copies ?? book.total_copies) > 0`. -/
def loadBooksFilter (books : List Book) : List Book :=
  books.filter (fun b => decide (0 < effectiveAvailable b))

/-! ## Frontend loan actions (src/frontend/src/pages/Loans/index.tsx) -/

/-- The renew entry of the per-loan action menu:
`disabled={loan.status !== 'active' || extendingLoanId === loan.id}`. -/
def renewButtonDisabled (status : String) (extendingLoanId : Option Nat) (loanId : Nat) : Bool :=
  status != "active" || extendingLoanId == some loanId

/-- The return entry of the per-loan action menu:
`disabled={loan.status === 'returned' || returningLoanId === loan.id}`. -/
def returnButtonDisabled (status : String) (returningLoanId : Option Nat) (loanId : Nat) : Bool :=
  status == "returned" || returningLoanId == some loanId

/-- An HTTP request issued by the client, as method and path. -/
structure Request where
  method : String
  path : String
deriving Repr, DecidableEq

/-- From src/frontend/src/services/api.ts `loansApi.extend`:
`api.post(`/loans/.../extend`)`. -/
def extendRequest (loanId : Nat) : Request :=
  { method := "POST", path := s!"/loans/{loanId}/extend" }

/-- A request against the books API: every `booksApi` call has a path
beginning with "/books/" (checked on the character list of the path). -/
def isBookEndpoint (r : Request) : Bool :=
  r.path.toList.take 7 == "/books/".toList

/-- The user lookups `fetchLoans` performs after listing: admins and
librarians call `usersApi.lookupByIds` (GET /users/lookup/ids) when the page
references at least one user; a plain user issues no user request. -/
def userLookupRequests (role : Role) (userIds : List Nat) : List Request :=
  match role with
  | Role.admin => if userIds.isEmpty then [] else [{ method := "GET", path := "/users/lookup/ids" }]
  | Role.librarian => if userIds.isEmpty then [] else [{ method := "GET", path := "/users/lookup/ids" }]
  | Role.user => []

/-- The requests of `fetchLoans` in the authenticated LoansPage: a GET of
/loans/, a GET of /books/{id} for each distinct book id of the fetched page
(via `booksApi.getById`), then the role-dependent user lookup. -/
def fetchLoansRequests (role : Role) (fetched : List Loan) : List Request :=
  { method := "GET", path := "/loans/" } ::
    ((fetched.map (fun l => l.book_id)).dedup.map
      (fun id => { method := "GET", path := s!"/books/{id}" : Request }))
    ++ userLookupRequests role (fetched.map (fun l => l.user_id)).dedup

/-- The requests issued by the success path of `handleExtendLoan`:
`loansApi.extend(loanId)` followed by `fetchLoans(0)`, whose refreshed page
is `refreshed`. -/
def handleExtendLoanRequests (role : Role) (loanId : Nat) (refreshed : List Loan) : List Request :=
  extendRequest loanId :: fetchLoansRequests role refreshed

/-! ## New-loan form (src/frontend/src/pages/Loans/index.tsx) -/

/-- JavaScript truthiness of the `tokenEmail` string-or-null value: null and
the empty string are falsy. -/
def emailTruthy : Option String → Bool
  | none => false
  | some s => s != ""

/-- From `selectableUsers`:
`selectable: role === 'user' ? user.email === tokenEmail : true`
(a strict equality against a string-or-null `tokenEmail`). -/
def selectableFor (role : Role) (tokenEmail : Option String) (u : User) : Bool :=
  match role with
  | Role.user => some u.email == tokenEmail
  | Role.admin => true
  | Role.librarian => true

/-- The possible outcomes of submitting the new-loan form. -/
inductive NewLoanOutcome
  | errorSelectMemberBook
  | errorOwnAccount
  | created (user_id book_id : Nat)
deriving Repr, DecidableEq

/-- From `handleNewLoan`: the guards executed before `loansApi.create`.
First `if (!selectedUser || !selectedBook)` sets an error and returns; then
`if (role === 'user' && tokenEmail && selectedUser.email !== tokenEmail)`
sets an error and returns; otherwise `loansApi.create` is called with the
selected user and book ids. -/
def handleNewLoan (role : Role) (tokenEmail : Option String)
    (selectedUser : Option User) (selectedBook : Option Book) : NewLoanOutcome :=
  match selectedUser, selectedBook with
  | some u, some b =>
      if role == Role.user && emailTruthy tokenEmail && !(some u.email == tokenEmail) then
        NewLoanOutcome.errorOwnAccount
      else
        NewLoanOutcome.created u.id b.id
  | _, _ => NewLoanOutcome.errorSelectMemberBook

/-- From the member picker entry:
`onClick={() => user.selectable && setSelectedUser(user)}` — clicking a
non-selectable member leaves the selection unchanged. -/
def clickUser (role : Role) (tokenEmail : Option String)
    (current : Option User) (u : User) : Option User :=
  if selectableFor role tokenEmail u then some u else current

/-- The selection reached after a sequence of clicks in the member picker,
starting from the initial `null` selection. -/
def selectAfterClicks (role : Role) (tokenEmail : Option String)
    (clicks : List User) : Option User :=
  clicks.foldl (clickUser role tokenEmail) none

/-! ## Loan Lifecycle Engine

Modelled from the spec: the backend engine (checkout, return, renewal and
the lazy status rule of sections 3 and 4 of the specification) is not part
of the repository snapshot — only the frontend that calls it is — so the
definitions of this section follow the specification's words.  Transactions
execute serially per book (the spec's exclusive row lock), which the model
reflects by making every operation a whole-state step. -/

/-- The derived loan status of the spec's data model. -/
inductive LoanStatus
  | active
  | overdue
  | returned
deriving Repr, DecidableEq

/-- Modelled from the spec: the lazy status rule — `returned` if
`return_date` is set; else `overdue` if `now > expected_return_date`; else
`active`.  Computed on every read, never stored. -/
def computeStatus (now expected_return_date : Int) (return_date : Option Int) : LoanStatus :=
  match return_date with
  | some _ => LoanStatus.returned
  | none => if expected_return_date < now then LoanStatus.overdue else LoanStatus.active

/-- Modelled from the spec: a Catalog Store book row. -/
structure BookRow where
  id : Nat
  total_copies : Int
  available_copies : Int
deriving Repr, DecidableEq

/-- Modelled from the spec: a Loan Ledger row.  `fine_amount` is in cents. -/
structure LoanRow where
  id : Nat
  user_id : Nat
  book_id : Nat
  loan_date : Int
  expected_return_date : Int
  return_date : Option Int
  fine_amount : Option Int
deriving Repr, DecidableEq

/-- Modelled from the spec: the configured constants — loan period, the
length of a day in time units, the daily fine rate in cents, and the
maximum number of active loans per member (default 3). -/
structure Config where
  loanPeriod : Int
  dayLength : Int
  dailyFineRateCents : Int
  maxActiveLoans : Nat
deriving Repr

/-- Modelled from the spec: the persistent state the engine orchestrates —
Membership Store, Catalog Store and Loan Ledger, plus the next fresh loan
id. -/
structure EngineState where
  members : List Nat
  books : List BookRow
  loans : List LoanRow
  nextLoanId : Nat
deriving Repr

/-- Modelled from the spec: the categorical errors of sections 4.1-4.3. -/
inductive EngineError
  | MemberNotFound
  | BookNotFound
  | MemberBlocked
  | LoanLimitExceeded
  | BookUnavailable
  | LoanNotFound
  | LoanAlreadyReturned
  | LoanNotActive
deriving Repr, DecidableEq

/-- The result of a successful mutation: the new state, the loan record
returned to the caller, and the book keys whose Availability Cache entries
are invalidated after commit. -/
structure OpResult where
  state : EngineState
  loan : LoanRow
  invalidatedBooks : List Nat
deriving Repr

/-- The loans of one member, read from the Loan Ledger. -/
def memberLoans (s : EngineState) (memberId : Nat) : List LoanRow :=
  s.loans.filter (fun l => l.user_id == memberId)

/-- The lazily computed status of a ledger row at time `now`. -/
def loanStatusAt (now : Int) (l : LoanRow) : LoanStatus :=
  computeStatus now l.expected_return_date l.return_date

/-- Modelled from the spec: the checkout algorithm of section 4.1 — member
checks (existence, overdue block, active-loan limit) then the book row
check (`available_copies == 0` fails BookUnavailable), then the decrement,
the insert of the new loan with `expected_return_date = now + loan_period`,
and the cache invalidation for the book. -/
def checkout (cfg : Config) (s : EngineState) (now : Int)
    (memberId bookId : Nat) : Except EngineError OpResult :=
  if memberId ∈ s.members then
    let ml := memberLoans s memberId
    if ml.any (fun l => loanStatusAt now l == LoanStatus.overdue) then
      Except.error EngineError.MemberBlocked
    else if cfg.maxActiveLoans ≤
        (ml.filter (fun l => loanStatusAt now l == LoanStatus.active)).length then
      Except.error EngineError.LoanLimitExceeded
    else
      match s.books.find? (fun b => b.id == bookId) with
      | none => Except.error EngineError.BookNotFound
      | some b =>
        if b.available_copies == 0 then
          Except.error EngineError.BookUnavailable
        else
          let newLoan : LoanRow :=
            { id := s.nextLoanId
              user_id := memberId
              book_id := bookId
              loan_date := now
              expected_return_date := now + cfg.loanPeriod
              return_date := none
              fine_amount := none }
          Except.ok
            { state :=
                { s with
                  books := s.books.map fun bb =>
                    if bb.id == bookId then
                      { bb with available_copies := bb.available_copies - 1 }
                    else bb
                  loans := s.loans ++ [newLoan]
                  nextLoanId := s.nextLoanId + 1 }
              loan := newLoan
              invalidatedBooks := [bookId] }
  else Except.error EngineError.MemberNotFound

/-- Modelled from the spec: `days_late = max(0, floor((now -
expected_return_date) in days))`. -/
def daysLate (cfg : Config) (now expected : Int) : Int :=
  max 0 (Int.fdiv (now - expected) cfg.dayLength)

/-- Modelled from the spec: `fine_amount = days_late * daily_fine_rate`,
exact integer arithmetic on cents. -/
def fineFor (cfg : Config) (now expected : Int) : Int :=
  daysLate cfg now expected * cfg.dailyFineRateCents

/-- Modelled from the spec: the return algorithm of section 4.2 — fail
LoanNotFound or LoanAlreadyReturned, otherwise fix the fine, set
`return_date = now`, increment the book's `available_copies` by one, and
invalidate the cache keys of the book. -/
def returnLoan (cfg : Config) (s : EngineState) (now : Int)
    (loanId : Nat) : Except EngineError OpResult :=
  match s.loans.find? (fun l => l.id == loanId) with
  | none => Except.error EngineError.LoanNotFound
  | some l =>
    if l.return_date.isSome then
      Except.error EngineError.LoanAlreadyReturned
    else
      Except.ok
        { state :=
            { s with
              books := s.books.map fun bb =>
                if bb.id == l.book_id then
                  { bb with available_copies := bb.available_copies + 1 }
                else bb
              loans := s.loans.map fun x =>
                if x.id == loanId then
                  { x with
                    return_date := some now
                    fine_amount := some (fineFor cfg now x.expected_return_date) }
                else x }
          loan :=
            { l with
              return_date := some now
              fine_amount := some (fineFor cfg now l.expected_return_date) }
          invalidatedBooks := [l.book_id] }

/-- Modelled from the spec: the renewal algorithm of section 4.3 — recompute
the status lazily; fail unless strictly active; otherwise extend
`expected_return_date` by the loan period.  No stock or cache effect. -/
def renew (cfg : Config) (s : EngineState) (now : Int)
    (loanId : Nat) : Except EngineError OpResult :=
  match s.loans.find? (fun l => l.id == loanId) with
  | none => Except.error EngineError.LoanNotFound
  | some l =>
    if loanStatusAt now l == LoanStatus.active then
      Except.ok
        { state :=
            { s with
              loans := s.loans.map fun x =>
                if x.id == loanId then
                  { x with expected_return_date := x.expected_return_date + cfg.loanPeriod }
                else x }
          loan := { l with expected_return_date := l.expected_return_date + cfg.loanPeriod }
          invalidatedBooks := [] }
    else Except.error EngineError.LoanNotActive

/-! ## The stock invariant -/

/-- The number of unreturned ledger rows referencing a book. -/
def openLoanCount (loans : List LoanRow) (bookId : Nat) : Nat :=
  (loans.filter (fun l => l.book_id == bookId && l.return_date.isNone)).length

/-- Every book's stock count agrees with the ledger and is non-negative. -/
def booksConsistent (s : EngineState) : Prop :=
  ∀ b ∈ s.books,
    b.available_copies = b.total_copies - (openLoanCount s.loans b.id : Int)
    ∧ 0 ≤ b.available_copies

/-- The engine-state invariant: stock counts consistent with the ledger,
book and loan ids unique, and all loan ids below the fresh counter. -/
def Inv (s : EngineState) : Prop :=
  booksConsistent s
  ∧ (s.books.map (fun b => b.id)).Nodup
  ∧ (s.loans.map (fun l => l.id)).Nodup
  ∧ ∀ l ∈ s.loans, l.id < s.nextLoanId

instance (s : EngineState) : Decidable (booksConsistent s) := by
  unfold booksConsistent; infer_instance

instance (s : EngineState) : Decidable (Inv s) := by
  unfold Inv; infer_instance

/-! ## Sample data for the concrete witnesses -/

/-- The configuration of the README: 14-day period, days as the unit,
R$ 2.00 (200 cents) per day, at most 3 active loans. -/
def sampleConfig : Config :=
  { loanPeriod := 14, dayLength := 1, dailyFineRateCents := 200, maxActiveLoans := 3 }

/-- A small engine state: members 1 and 2, one book with a single copy. -/
def sampleState : EngineState :=
  { members := [1, 2]
    books := [{ id := 10, total_copies := 1, available_copies := 1 }]
    loans := []
    nextLoanId := 0 }

/-- A state holding one open loan, due at day 10, on a two-copy book with
one copy out. -/
def sampleLoanState : EngineState :=
  { members := [1]
    books := [{ id := 10, total_copies := 2, available_copies := 1 }]
    loans := [{ id := 5, user_id := 1, book_id := 10, loan_date := -4,
                expected_return_date := 10, return_date := none, fine_amount := none }]
    nextLoanId := 6 }

/-- The ledger row held by `sampleLoanState`. -/
def sampleLoanRow : LoanRow :=
  { id := 5, user_id := 1, book_id := 10, loan_date := -4,
    expected_return_date := 10, return_date := none, fine_amount := none }

/-- The result of checking out the single copy of book 10 from
`sampleState` by member 1 at time 0. -/
def sampleCheckoutResult : OpResult :=
  { state :=
      { members := [1, 2]
        books := [{ id := 10, total_copies := 1, available_copies := 0 }]
        loans := [{ id := 0, user_id := 1, book_id := 10, loan_date := 0,
                    expected_return_date := 14, return_date := none,
                    fine_amount := none }]
        nextLoanId := 1 }
    loan := { id := 0, user_id := 1, book_id := 10, loan_date := 0,
              expected_return_date := 14, return_date := none,
              fine_amount := none }
    invalidatedBooks := [10] }

/-- The result of returning loan 5 of `sampleLoanState` at day 12 — two
days past its expected return date of day 10. -/
def sampleReturnResult : OpResult :=
  { state :=
      { members := [1]
        books := [{ id := 10, total_copies := 2, available_copies := 2 }]
        loans := [{ id := 5, user_id := 1, book_id := 10, loan_date := -4,
                    expected_return_date := 10, return_date := some 12,
                    fine_amount := some 400 }]
        nextLoanId := 6 }
    loan := { id := 5, user_id := 1, book_id := 10, loan_date := -4,
              expected_return_date := 10, return_date := some 12,
              fine_amount := some 400 }
    invalidatedBooks := [10] }

/-- The result of renewing loan 5 of `sampleLoanState` at day 0, while it
is still active. -/
def sampleRenewResult : OpResult :=
  { state :=
      { members := [1]
        books := [{ id := 10, total_copies := 2, available_copies := 1 }]
        loans := [{ id := 5, user_id := 1, book_id := 10, loan_date := -4,
                    expected_return_date := 24, return_date := none,
                    fine_amount := none }]
        nextLoanId := 6 }
    loan := { id := 5, user_id := 1, book_id := 10, loan_date := -4,
              expected_return_date := 24, return_date := none,
              fine_amount := none }
    invalidatedBooks := [] }

/-- A frontend book whose `available_copies` field is absent. -/
def sampleBookNoAvail : Book :=
  { id := 3, title := "Sapiens", author := "Harari", isbn := "978-0062316097",
    total_copies := 5, available_copies := none }

/-- A frontend loan row as fetched from the API. -/
def sampleFetchedLoan : Loan :=
  { id := 7, user_id := 2, book_id := 1, expected_return_date := "2026-10-20",
    return_date := none, status := "active", fine_amount := none }

/-- A sample member for the new-loan form. -/
def sampleOtherUser : User :=
  { id := 9, name := "Bob", email := "bob@libsys.net" }

/-! ## List helper lemmas -/

theorem find?_map_pres {α : Type} (f : α → α) (p : α → Bool)
    (hp : ∀ a, p (f a) = p a) (l : List α) :
    (l.map f).find? p = (l.find? p).map f := by
  induction l with
  | nil => rfl
  | cons c t ih =>
    simp only [List.map_cons, List.find?, hp c]
    cases hc : p c
    · simpa using ih
    · simp

theorem map_nodup_inj {α β : Type} {f : α → β} {l : List α}
    (h : (l.map f).Nodup) {a b : α} (ha : a ∈ l) (hb : b ∈ l)
    (hf : f a = f b) : a = b := by
  induction l with
  | nil => cases ha
  | cons c t ih =>
    rw [List.map_cons, List.nodup_cons] at h
    rcases List.mem_cons.mp ha with rfl | ha2
    · rcases List.mem_cons.mp hb with rfl | hb2
      · rfl
      · exact absurd (hf ▸ List.mem_map_of_mem f hb2) h.1
    · rcases List.mem_cons.mp hb with rfl | hb2
      · exact absurd (hf ▸ List.mem_map_of_mem f ha2) h.1
      · exact ih h.2 ha2 hb2

/-! ## Claim C1 -/

/-- C1: for every loan the derived status is exactly one of
active/overdue/returned, computed on every read as: returned if
`return_date` is set; else overdue if `now > expected_return_date`; else
active.  The three characterizations below have mutually exclusive
right-hand sides covering all cases, so exactly one status holds. -/
theorem computeStatus_exactly_one (now expected : Int) (rd : Option Int) :
    (computeStatus now expected rd = LoanStatus.returned
      ∨ computeStatus now expected rd = LoanStatus.overdue
      ∨ computeStatus now expected rd = LoanStatus.active)
    ∧ (computeStatus now expected rd = LoanStatus.returned ↔ rd ≠ none)
    ∧ (computeStatus now expected rd = LoanStatus.overdue ↔ rd = none ∧ expected < now)
    ∧ (computeStatus now expected rd = LoanStatus.active ↔ rd = none ∧ now ≤ expected) := by
  cases rd with
  | none =>
    by_cases h : expected < now
    · exact ⟨by simp [computeStatus, h], by simp [computeStatus, h],
        by simp [computeStatus, h], by simp [computeStatus, h]; try omega⟩
    · exact ⟨by simp [computeStatus, h], by simp [computeStatus, h],
        by simp [computeStatus, h]; try omega, by simp [computeStatus, h]; try omega⟩
  | some d => simp [computeStatus]

/-! ## Claim C9 -/

/-- C9: wherever the interface decides availability, the value used is
`available_copies ?? total_copies`; a book whose `available_copies` field
is absent and whose `total_copies` is positive is shown with an Available
badge, a stock count equal to `total_copies`, and is kept by the new-loan
book picker. -/
theorem missing_available_copies_treated_available
    (b : Book) (hnone : b.available_copies = none) (hpos : 0 < b.total_copies) :
    effectiveAvailable b = b.total_copies
    ∧ getStatusBadge b = "Available"
    ∧ (∀ al bl, getStatusBadgeLabelled b al bl = al)
    ∧ stockColumn b = b.total_copies
    ∧ ∀ books : List Book, b ∈ books → b ∈ loadBooksFilter books := by
  have heff : effectiveAvailable b = b.total_copies := by
    simp [effectiveAvailable, hnone]
  refine ⟨heff, ?_, ?_, ?_, ?_⟩
  · simp [getStatusBadge, heff, hpos]
  · intro al bl; simp [getStatusBadgeLabelled, heff, hpos]
  · simp [stockColumn, heff]
  · intro books hb
    exact List.mem_filter.mpr ⟨hb, by simp [heff, hpos]⟩

/-- Witness for C9 at the concrete book with no `available_copies`. -/
theorem missing_available_copies_witness :
    sampleBookNoAvail.available_copies = none
    ∧ 0 < sampleBookNoAvail.total_copies
    ∧ getStatusBadge sampleBookNoAvail = "Available"
    ∧ sampleBookNoAvail ∈ loadBooksFilter [sampleBookNoAvail] := by
  refine ⟨rfl, by decide, ?_, ?_⟩
  · exact (missing_available_copies_treated_available sampleBookNoAvail rfl (by decide)).2.1
  · exact (missing_available_copies_treated_available sampleBookNoAvail rfl
      (by decide)).2.2.2.2 [sampleBookNoAvail] (List.mem_singleton.mpr rfl)

/-! ## Claim C10 -/

theorem foldl_clickUser_selectable (role : Role) (tokenEmail : Option String) :
    ∀ (clicks : List User) (cur : Option User),
      (∀ v, cur = some v → selectableFor role tokenEmail v = true) →
      ∀ w, clicks.foldl (clickUser role tokenEmail) cur = some w →
      selectableFor role tokenEmail w = true := by
  intro clicks
  induction clicks with
  | nil => intro cur hcur w hw; exact hcur w hw
  | cons c t ih =>
    intro cur hcur w hw
    rw [List.foldl_cons] at hw
    refine ih (clickUser role tokenEmail cur c) ?_ w hw
    intro v hv
    unfold clickUser at hv
    split at hv
    · cases hv; assumption
    · exact hcur v hv

theorem selectAfterClicks_selectable (role : Role) (tokenEmail : Option String)
    (clicks : List User) (u : User)
    (h : selectAfterClicks role tokenEmail clicks = some u) :
    selectableFor role tokenEmail u = true := by
  exact foldl_clickUser_selectable role tokenEmail clicks none
    (by intro v hv; cases hv) u h

/-- C10: in a session with role `user`, submitting the new-loan form never
issues a creation request for a member whose email differs from the token
email: such a member is not selectable, the submit guard rejects it, and
any selection reachable through the picker carries the token email. -/
theorem user_role_cannot_loan_for_others
    (tokenEmail : Option String) (e : String) (htok : tokenEmail = some e)
    (u : User) (hdiff : u.email ≠ e) :
    selectableFor Role.user tokenEmail u = false
    ∧ (e ≠ "" → ∀ b : Book, handleNewLoan Role.user tokenEmail (some u) (some b)
        = NewLoanOutcome.errorOwnAccount)
    ∧ ∀ (clicks : List User) (sb : Option Book) (uid bid : Nat),
        handleNewLoan Role.user tokenEmail (selectAfterClicks Role.user tokenEmail clicks) sb
          = NewLoanOutcome.created uid bid →
        ∃ v : User, selectAfterClicks Role.user tokenEmail clicks = some v
          ∧ v.email = e ∧ uid = v.id := by
  subst htok
  refine ⟨by simp [selectableFor, hdiff], ?_, ?_⟩
  · intro he b
    simp [handleNewLoan, emailTruthy, he, hdiff]
  · intro clicks sb uid bid hcr
    cases hsel : selectAfterClicks Role.user (some e) clicks with
    | none => rw [hsel] at hcr; cases sb <;> simp [handleNewLoan] at hcr
    | some v =>
      have hvsel := selectAfterClicks_selectable Role.user (some e) clicks v hsel
      have hveq : v.email = e := by simpa [selectableFor] using hvsel
      refine ⟨v, rfl, hveq, ?_⟩
      rw [hsel] at hcr
      cases sb with
      | none => simp [handleNewLoan] at hcr
      | some b =>
        have hrun : handleNewLoan Role.user (some e) (some v) (some b)
            = NewLoanOutcome.created v.id b.id := by
          simp [handleNewLoan, hveq]
        rw [hrun] at hcr
        injection hcr with h1 h2
        exact h1.symm

/-- Witness for C10 with a concrete token email and a different member. -/
theorem user_role_cannot_loan_for_others_witness :
    selectableFor Role.user (some "alice@example.com") sampleOtherUser = false := by
  exact (user_role_cannot_loan_for_others (some "alice@example.com")
    "alice@example.com" rfl sampleOtherUser (by decide)).1

/-! ## Counting open loans -/

theorem openLoanCount_append (loans : List LoanRow) (nl : LoanRow) (bid : Nat) :
    openLoanCount (loans ++ [nl]) bid
      = openLoanCount loans bid
        + (if nl.book_id == bid && nl.return_date.isNone then 1 else 0) := by
  simp only [openLoanCount, List.filter_append, List.length_append]
  congr 1
  cases h : (nl.book_id == bid && nl.return_date.isNone)
  · simp [List.filter_cons, h]
  · simp [List.filter_cons, h]

theorem openLoanCount_map_pres (f : LoanRow → LoanRow)
    (hb : ∀ l, (f l).book_id = l.book_id)
    (hr : ∀ l, (f l).return_date = l.return_date)
    (loans : List LoanRow) (bid : Nat) :
    openLoanCount (loans.map f) bid = openLoanCount loans bid := by
  induction loans with
  | nil => rfl
  | cons c t ih =>
    unfold openLoanCount
    rw [List.map_cons, List.filter_cons, List.filter_cons]
    have hp : ((f c).book_id == bid && (f c).return_date.isNone)
        = (c.book_id == bid && c.return_date.isNone) := by
      rw [hb c, hr c]
    rw [hp]
    cases h : (c.book_id == bid && c.return_date.isNone)
    · simpa [h] using ih
    · simpa [h] using ih

theorem openLoanCount_cons (c : LoanRow) (t : List LoanRow) (bid : Nat) :
    openLoanCount (c :: t) bid
      = (if c.book_id == bid && c.return_date.isNone then 1 else 0)
        + openLoanCount t bid := by
  unfold openLoanCount
  rw [List.filter_cons]
  cases h : (c.book_id == bid && c.return_date.isNone)
  · simp [h]
  · simp [h]
    omega

theorem openLoanCount_close_update (cfg : Config) (now : Int)
    (loanId : Nat) :
    ∀ (loans : List LoanRow) (l0 : LoanRow),
      l0 ∈ loans → l0.id = loanId → l0.return_date = none →
      (loans.map (fun l => l.id)).Nodup →
      ∀ bid,
        openLoanCount
          (loans.map fun x =>
            if x.id = loanId then
              { x with return_date := some now,
                       fine_amount := some (fineFor cfg now x.expected_return_date) }
            else x) bid
          + (if l0.book_id = bid then 1 else 0)
        = openLoanCount loans bid := by
  intro loans
  induction loans with
  | nil => intro l0 h; cases h
  | cons c t ih =>
    intro l0 hmem hid hopen hnd bid
    rw [List.map_cons, List.nodup_cons] at hnd
    rcases List.mem_cons.mp hmem with rfl | hmem2
    · have ht : (t.map fun x =>
          if x.id = loanId then
            { x with return_date := some now,
                     fine_amount := some (fineFor cfg now x.expected_return_date) }
          else x) = t := by
        have hpt : ∀ x ∈ t, (if x.id = loanId then
            ({ x with return_date := some now,
                      fine_amount := some (fineFor cfg now x.expected_return_date) } : LoanRow)
          else x) = x := by
          intro x hx
          have hne : x.id ≠ loanId := by
            intro hxe
            exact hnd.1 (hid ▸ hxe ▸ List.mem_map_of_mem (fun l => l.id) hx)
          simp [hne]
        calc (t.map fun x =>
              if x.id = loanId then
                { x with return_date := some now,
                         fine_amount := some (fineFor cfg now x.expected_return_date) }
              else x)
            = t.map (fun x => x) := List.map_congr_left hpt
          _ = t := by simp
      rw [List.map_cons, if_pos hid, ht, openLoanCount_cons, openLoanCount_cons]
      simp only [hopen, Option.isNone_some, Option.isNone_none, Bool.and_false,
        Bool.and_true]
      by_cases h : l0.book_id = bid
      · simp [h]
        omega
      · simp [h]
    · have hcne : c.id ≠ loanId := by
        intro hce
        exact hnd.1 (hce ▸ hid ▸ List.mem_map_of_mem (fun l => l.id) hmem2)
      rw [List.map_cons, if_neg hcne, openLoanCount_cons, openLoanCount_cons]
      have hrec := ih l0 hmem2 hid hopen hnd.2 bid
      rw [Nat.add_assoc, hrec]

/-! ## Invariant preservation -/

theorem bounds_of_Inv (s : EngineState) (hInv : Inv s) :
    ∀ b ∈ s.books, 0 ≤ b.available_copies ∧ b.available_copies ≤ b.total_copies := by
  intro b hb
  obtain ⟨h1, h2⟩ := hInv.1 b hb
  have : (0 : Int) ≤ (openLoanCount s.loans b.id : Int) := Int.natCast_nonneg _
  omega

theorem checkout_ok_inversion (cfg : Config) (s : EngineState) (now : Int)
    (memberId bookId : Nat) (r : OpResult)
    (h : checkout cfg s now memberId bookId = Except.ok r) :
    memberId ∈ s.members
    ∧ ∃ b, s.books.find? (fun bb => bb.id == bookId) = some b
      ∧ b.available_copies ≠ 0
      ∧ r = { state :=
                { s with
                  books := s.books.map fun bb =>
                    if bb.id = bookId then
                      { bb with available_copies := bb.available_copies - 1 }
                    else bb
                  loans := s.loans ++
                    [{ id := s.nextLoanId, user_id := memberId, book_id := bookId,
                       loan_date := now, expected_return_date := now + cfg.loanPeriod,
                       return_date := none, fine_amount := none }]
                  nextLoanId := s.nextLoanId + 1 }
              loan :=
                { id := s.nextLoanId, user_id := memberId, book_id := bookId,
                  loan_date := now, expected_return_date := now + cfg.loanPeriod,
                  return_date := none, fine_amount := none }
              invalidatedBooks := [bookId] } := by
  by_cases h1 : memberId ∈ s.members
  case neg => simp [checkout, h1] at h
  by_cases h2 : ((memberLoans s memberId).any
      fun l => loanStatusAt now l == LoanStatus.overdue) = true
  · simp [checkout, h1, h2] at h
  by_cases h3 : cfg.maxActiveLoans ≤
      ((memberLoans s memberId).filter
        fun l => loanStatusAt now l == LoanStatus.active).length
  · simp [checkout, h1, h2, h3] at h
  cases hfind : s.books.find? (fun b => b.id == bookId) with
  | none => simp [checkout, h1, h2, h3, hfind] at h
  | some b =>
    by_cases h5 : b.available_copies = 0
    · simp [checkout, h1, h2, h3, hfind, h5] at h
    · refine ⟨h1, b, rfl, h5, ?_⟩
      simp [checkout, h1, h2, h3, hfind, h5] at h
      exact h.symm

theorem checkout_preserves_Inv (cfg : Config) (s : EngineState) (now : Int)
    (memberId bookId : Nat) (r : OpResult) (hInv : Inv s)
    (h : checkout cfg s now memberId bookId = Except.ok r) : Inv r.state := by
  obtain ⟨hbc, hbnd, hlnd, hfresh⟩ := hInv
  obtain ⟨hmem, b, hfind, havail, hr⟩ :=
    checkout_ok_inversion cfg s now memberId bookId r h
  subst hr
  have hbmem : b ∈ s.books := List.mem_of_find?_eq_some hfind
  have hbid : b.id = bookId := by
    have hpb := List.find?_some hfind
    simpa using hpb
  have hbpos : 1 ≤ b.available_copies := by
    have hge := (hbc b hbmem).2
    omega
  refine ⟨?_, ?_, ?_, ?_⟩
  · intro b2 hb2
    obtain ⟨b0, hb0, rfl⟩ := List.mem_map.mp hb2
    obtain ⟨hc0, hn0⟩ := hbc b0 hb0
    by_cases hb0id : b0.id = bookId
    · have hb0eq : b0 = b :=
        map_nodup_inj hbnd hb0 hbmem (by rw [hb0id, hbid])
      rw [if_pos hb0id]
      dsimp only
      rw [openLoanCount_append]
      simp only [hb0id] at hc0 ⊢
      simp only [Option.isNone_none, Bool.and_true, beq_self_eq_true, if_pos rfl]
      constructor
      · push_cast
        omega
      · rw [hb0eq]
        omega
    · rw [if_neg hb0id]
      rw [openLoanCount_append]
      have hne2 : (bookId == b0.id) = false :=
        beq_eq_false_iff_ne.mpr (Ne.symm hb0id)
      simp only [hne2, Bool.false_and, Bool.false_eq_true, if_false, Nat.add_zero]
      exact ⟨hc0, hn0⟩
  · dsimp only
    rw [List.map_map]
    have hcomp : ((fun b => b.id) ∘ fun bb =>
        if bb.id = bookId then
          { bb with available_copies := bb.available_copies - 1 }
        else bb) = fun b : BookRow => b.id := by
      funext bb
      simp only [Function.comp_apply]
      split
      · rfl
      · rfl
    rw [hcomp]
    exact hbnd
  · dsimp only
    rw [List.map_append, List.nodup_append]
    refine ⟨hlnd, List.nodup_singleton _, ?_⟩
    intro a ha
    obtain ⟨l, hl, rfl⟩ := List.mem_map.mp ha
    have hlt := hfresh l hl
    simp only [List.map_cons, List.map_nil, List.mem_singleton]
    show ¬ l.id = s.nextLoanId
    omega
  · intro l hl
    rcases List.mem_append.mp hl with hl2 | hl2
    · have hlt := hfresh l hl2
      show l.id < s.nextLoanId + 1
      omega
    · simp only [List.mem_singleton] at hl2
      subst hl2
      show s.nextLoanId < s.nextLoanId + 1
      omega

theorem returnLoan_ok_inversion (cfg : Config) (s : EngineState) (now : Int)
    (loanId : Nat) (r : OpResult)
    (h : returnLoan cfg s now loanId = Except.ok r) :
    ∃ l, s.loans.find? (fun x => x.id == loanId) = some l
      ∧ l.return_date = none
      ∧ r = { state :=
                { s with
                  books := s.books.map fun bb =>
                    if bb.id = l.book_id then
                      { bb with available_copies := bb.available_copies + 1 }
                    else bb
                  loans := s.loans.map fun x =>
                    if x.id = loanId then
                      { x with return_date := some now,
                               fine_amount := some (fineFor cfg now x.expected_return_date) }
                    else x }
              loan := { l with return_date := some now,
                               fine_amount := some (fineFor cfg now l.expected_return_date) }
              invalidatedBooks := [l.book_id] } := by
  cases hfind : s.loans.find? (fun x => x.id == loanId) with
  | none => simp [returnLoan, hfind] at h
  | some l =>
    cases hrd : l.return_date with
    | some d => simp [returnLoan, hfind, hrd] at h
    | none =>
      refine ⟨l, rfl, hrd, ?_⟩
      simp [returnLoan, hfind, hrd] at h
      exact h.symm

theorem renew_ok_inversion (cfg : Config) (s : EngineState) (now : Int)
    (loanId : Nat) (r : OpResult)
    (h : renew cfg s now loanId = Except.ok r) :
    ∃ l, s.loans.find? (fun x => x.id == loanId) = some l
      ∧ loanStatusAt now l = LoanStatus.active
      ∧ r = { state :=
                { s with
                  loans := s.loans.map fun x =>
                    if x.id = loanId then
                      { x with expected_return_date :=
                          x.expected_return_date + cfg.loanPeriod }
                    else x }
              loan := { l with expected_return_date :=
                          l.expected_return_date + cfg.loanPeriod }
              invalidatedBooks := [] } := by
  cases hfind : s.loans.find? (fun x => x.id == loanId) with
  | none => simp [renew, hfind] at h
  | some l =>
    by_cases hact : loanStatusAt now l = LoanStatus.active
    · refine ⟨l, rfl, hact, ?_⟩
      simp [renew, hfind, hact] at h
      exact h.symm
    · simp [renew, hfind, hact] at h

theorem returnLoan_preserves_Inv (cfg : Config) (s : EngineState) (now : Int)
    (loanId : Nat) (r : OpResult) (hInv : Inv s)
    (h : returnLoan cfg s now loanId = Except.ok r) : Inv r.state := by
  obtain ⟨hbc, hbnd, hlnd, hfresh⟩ := hInv
  obtain ⟨l, hfind, hrd, hr⟩ := returnLoan_ok_inversion cfg s now loanId r h
  subst hr
  have hlmem : l ∈ s.loans := List.mem_of_find?_eq_some hfind
  have hlid : l.id = loanId := by
    have hp := List.find?_some hfind
    simpa using hp
  have hcnt := openLoanCount_close_update cfg now loanId s.loans l hlmem hlid hrd hlnd
  have hids : ((s.loans.map fun x =>
      if x.id = loanId then
        { x with return_date := some now,
                 fine_amount := some (fineFor cfg now x.expected_return_date) }
      else x).map fun x => x.id) = s.loans.map fun x => x.id := by
    rw [List.map_map]
    refine List.map_congr_left ?_
    intro x hx
    simp only [Function.comp_apply]
    split
    · rfl
    · rfl
  refine ⟨?_, ?_, ?_, ?_⟩
  swap
  · dsimp only
    rw [List.map_map]
    have hcomp : ((fun b => b.id) ∘ fun bb =>
        if bb.id = l.book_id then
          { bb with available_copies := bb.available_copies + 1 }
        else bb) = fun b : BookRow => b.id := by
      funext bb
      simp only [Function.comp_apply]
      split
      · rfl
      · rfl
    rw [hcomp]
    exact hbnd
  · intro b2 hb2
    obtain ⟨b0, hb0, rfl⟩ := List.mem_map.mp hb2
    obtain ⟨hc0, hn0⟩ := hbc b0 hb0
    by_cases hb0id : b0.id = l.book_id
    · rw [if_pos hb0id]
      dsimp only
      have hc := hcnt b0.id
      rw [if_pos hb0id.symm] at hc
      constructor
      · omega
      · omega
    · rw [if_neg hb0id]
      have hc := hcnt b0.id
      rw [if_neg (fun hh => hb0id hh.symm), Nat.add_zero] at hc
      rw [hc]
      exact ⟨hc0, hn0⟩
  · rw [hids]
    exact hlnd
  · intro x hx
    obtain ⟨x0, hx0, rfl⟩ := List.mem_map.mp hx
    have hlt := hfresh x0 hx0
    by_cases hxi : x0.id = loanId
    · rw [if_pos hxi]
      show x0.id < s.nextLoanId
      exact hlt
    · rw [if_neg hxi]
      exact hlt

theorem renew_preserves_Inv (cfg : Config) (s : EngineState) (now : Int)
    (loanId : Nat) (r : OpResult) (hInv : Inv s)
    (h : renew cfg s now loanId = Except.ok r) : Inv r.state := by
  obtain ⟨hbc, hbnd, hlnd, hfresh⟩ := hInv
  obtain ⟨l, hfind, hact, hr⟩ := renew_ok_inversion cfg s now loanId r h
  subst hr
  have hids : ((s.loans.map fun x =>
      if x.id = loanId then
        { x with expected_return_date := x.expected_return_date + cfg.loanPeriod }
      else x).map fun x => x.id) = s.loans.map fun x => x.id := by
    rw [List.map_map]
    refine List.map_congr_left ?_
    intro x hx
    simp only [Function.comp_apply]
    split
    · rfl
    · rfl
  have hcnt : ∀ bid, openLoanCount (s.loans.map fun x =>
      if x.id = loanId then
        { x with expected_return_date := x.expected_return_date + cfg.loanPeriod }
      else x) bid = openLoanCount s.loans bid := by
    intro bid
    refine openLoanCount_map_pres _ ?_ ?_ s.loans bid
    · intro x
      split
      · rfl
      · rfl
    · intro x
      split
      · rfl
      · rfl
  refine ⟨?_, hbnd, ?_, ?_⟩
  · intro b hb
    rw [hcnt b.id]
    exact hbc b hb
  · rw [hids]
    exact hlnd
  · intro x hx
    obtain ⟨x0, hx0, rfl⟩ := List.mem_map.mp hx
    have hlt := hfresh x0 hx0
    by_cases hxi : x0.id = loanId
    · rw [if_pos hxi]
      show x0.id < s.nextLoanId
      exact hlt
    · rw [if_neg hxi]
      exact hlt

/-! ## Claim C3 -/

/-- C3: for every book `0 ≤ available_copies ≤ total_copies` holds before
and after every engine operation — checkout, return and renewal each map an
invariant-satisfying state to an invariant-satisfying state — and a newly
created book (frontend `handleAddBook`) starts with `available_copies`
equal to `total_copies`. -/
theorem stock_bounds_invariant (cfg : Config) (s : EngineState) (now : Int)
    (hInv : Inv s) :
    (∀ b ∈ s.books, 0 ≤ b.available_copies ∧ b.available_copies ≤ b.total_copies)
    ∧ (∀ memberId bookId r, checkout cfg s now memberId bookId = Except.ok r →
        Inv r.state ∧ ∀ b ∈ r.state.books,
          0 ≤ b.available_copies ∧ b.available_copies ≤ b.total_copies)
    ∧ (∀ loanId r, returnLoan cfg s now loanId = Except.ok r →
        Inv r.state ∧ ∀ b ∈ r.state.books,
          0 ≤ b.available_copies ∧ b.available_copies ≤ b.total_copies)
    ∧ (∀ loanId r, renew cfg s now loanId = Except.ok r →
        Inv r.state ∧ ∀ b ∈ r.state.books,
          0 ≤ b.available_copies ∧ b.available_copies ≤ b.total_copies)
    ∧ ∀ (books : List Book) (formData : CreateBookData),
        (handleAddBookNewBook books formData).available_copies
          = some formData.total_copies := by
  refine ⟨bounds_of_Inv s hInv, ?_, ?_, ?_, ?_⟩
  · intro memberId bookId r h
    have hInv2 := checkout_preserves_Inv cfg s now memberId bookId r hInv h
    exact ⟨hInv2, bounds_of_Inv _ hInv2⟩
  · intro loanId r h
    have hInv2 := returnLoan_preserves_Inv cfg s now loanId r hInv h
    exact ⟨hInv2, bounds_of_Inv _ hInv2⟩
  · intro loanId r h
    have hInv2 := renew_preserves_Inv cfg s now loanId r hInv h
    exact ⟨hInv2, bounds_of_Inv _ hInv2⟩
  · intro books formData
    rfl

/-- Witness for C3 at a concrete state satisfying the invariant. -/
theorem stock_bounds_invariant_witness :
    Inv sampleState
    ∧ ∀ b ∈ sampleState.books,
        0 ≤ b.available_copies ∧ b.available_copies ≤ b.total_copies :=
  ⟨by decide, (stock_bounds_invariant sampleConfig sampleState 0 (by decide)).1⟩

/-! ## Claim C2 -/

/-- C2: two checkouts of the same one-copy book, serialized by the store's
exclusive row lock (the model executes the two transactions in sequence,
which is what the lock guarantees): the first succeeds, the second fails
BookUnavailable, and the final stock is 0 — never -1. -/
theorem concurrent_checkout_one_copy
    (cfg : Config) (s : EngineState) (now : Int) (x y bookId : Nat) (b : BookRow)
    (hxy : y ≠ x)
    (hfind : s.books.find? (fun bb => bb.id == bookId) = some b)
    (havail : b.available_copies = 1)
    (r1 : OpResult)
    (h1 : checkout cfg s now x bookId = Except.ok r1)
    (hy : y ∈ s.members)
    (hyOver : ((memberLoans s y).any
        fun l => loanStatusAt now l == LoanStatus.overdue) = false)
    (hyLim : ((memberLoans s y).filter
        fun l => loanStatusAt now l == LoanStatus.active).length < cfg.maxActiveLoans) :
    checkout cfg r1.state now y bookId = Except.error EngineError.BookUnavailable
    ∧ r1.state.books.find? (fun bb => bb.id == bookId)
        = some { b with available_copies := 0 } := by
  obtain ⟨hmemx, b2, hfind2, havail2, hr⟩ :=
    checkout_ok_inversion cfg s now x bookId r1 h1
  have hbb : b2 = b := by
    rw [hfind2] at hfind
    exact Option.some.inj hfind
  subst hbb
  have hbid : b2.id = bookId := by
    simpa using List.find?_some hfind2
  have hm2 : r1.state.members = s.members := by rw [hr]
  have hl2 : r1.state.loans = s.loans ++
      [{ id := s.nextLoanId, user_id := x, book_id := bookId,
         loan_date := now, expected_return_date := now + cfg.loanPeriod,
         return_date := none, fine_amount := none }] := by rw [hr]
  have hb2 : r1.state.books = s.books.map fun bb =>
      if bb.id = bookId then
        { bb with available_copies := bb.available_copies - 1 }
      else bb := by rw [hr]
  have hp : ∀ a : BookRow, ((if a.id = bookId then
      { a with available_copies := a.available_copies - 1 } else a).id == bookId)
      = (a.id == bookId) := by
    intro a
    by_cases h : a.id = bookId <;> simp [h]
  have hfind3 : r1.state.books.find? (fun bb => bb.id == bookId)
      = some { b2 with available_copies := 0 } := by
    rw [hb2, find?_map_pres _ _ hp s.books, hfind2]
    simp [hbid, havail]
  have hml2 : memberLoans r1.state y = memberLoans s y := by
    unfold memberLoans
    rw [hl2, List.filter_append]
    simp [beq_eq_false_iff_ne.mpr (Ne.symm hxy)]
  have hnle : ¬ (cfg.maxActiveLoans ≤
      ((memberLoans s y).filter
        fun l => loanStatusAt now l == LoanStatus.active).length) :=
    Nat.not_le.mpr hyLim
  refine ⟨?_, hfind3⟩
  rw [checkout, if_pos (hm2 ▸ hy), hml2, if_neg (by rw [hyOver]; exact Bool.false_ne_true),
    if_neg hnle, hfind3]
  rfl

/-- Witness for C2: the concrete two-member, one-copy scenario. -/
theorem concurrent_checkout_one_copy_witness :
    checkout sampleConfig sampleState 0 1 10 = Except.ok sampleCheckoutResult
    ∧ checkout sampleConfig sampleCheckoutResult.state 0 2 10
        = Except.error EngineError.BookUnavailable
    ∧ sampleCheckoutResult.state.books.find? (fun bb => bb.id == 10)
        = some { id := 10, total_copies := 1, available_copies := 0 } := by
  have h1 : checkout sampleConfig sampleState 0 1 10
      = Except.ok sampleCheckoutResult := rfl
  have hmain := concurrent_checkout_one_copy sampleConfig sampleState 0 1 2 10
    { id := 10, total_copies := 1, available_copies := 1 }
    (by decide) rfl rfl sampleCheckoutResult h1 (by decide) rfl (by decide)
  exact ⟨h1, hmain.1, hmain.2⟩

/-! ## Claim C4 -/

/-- C4: the fine fixed by a successful return is exactly
`max(0, floor((now - expected_return_date) / day)) * daily_fine_rate`,
computed in integer cents — exact fixed-point arithmetic with no rounding
error.  The witness instantiates the two-days-late, rate-2.00 case and gets
exactly 400 cents (R$ 4.00). -/
theorem fine_exact_fixed_point (cfg : Config) (s : EngineState) (now : Int)
    (loanId : Nat) (r : OpResult)
    (h : returnLoan cfg s now loanId = Except.ok r) :
    r.loan.fine_amount
      = some (max 0 (Int.fdiv (now - r.loan.expected_return_date) cfg.dayLength)
          * cfg.dailyFineRateCents)
    ∧ r.loan.return_date = some now := by
  obtain ⟨l, hfind, hrd, hr⟩ := returnLoan_ok_inversion cfg s now loanId r h
  subst hr
  exact ⟨rfl, rfl⟩

/-- Witness for C4: returning two days late at 200 cents per day yields
exactly 400 cents. -/
theorem fine_exact_fixed_point_witness :
    returnLoan sampleConfig sampleLoanState 12 5 = Except.ok sampleReturnResult
    ∧ sampleReturnResult.loan.fine_amount
      = some (max 0 (Int.fdiv (12 - sampleReturnResult.loan.expected_return_date)
          sampleConfig.dayLength) * sampleConfig.dailyFineRateCents)
    ∧ sampleReturnResult.loan.fine_amount = some 400 := by
  have h : returnLoan sampleConfig sampleLoanState 12 5
      = Except.ok sampleReturnResult := rfl
  exact ⟨h, (fine_exact_fixed_point sampleConfig sampleLoanState 12 5
    sampleReturnResult h).1, rfl⟩

/-! ## Claim C5 -/

/-- C5: after a successful return, a second return of the same loan fails
LoanAlreadyReturned and the book's stock was incremented exactly once; the
UI return action is disabled for every loan whose status is returned. -/
theorem double_return_rejected (cfg : Config) (s : EngineState)
    (now now2 : Int) (loanId : Nat) (r1 : OpResult) (b : BookRow)
    (h1 : returnLoan cfg s now loanId = Except.ok r1)
    (hbfind : s.books.find? (fun bb => bb.id == r1.loan.book_id) = some b) :
    returnLoan cfg r1.state now2 loanId = Except.error EngineError.LoanAlreadyReturned
    ∧ r1.state.books.find? (fun bb => bb.id == r1.loan.book_id)
        = some { b with available_copies := b.available_copies + 1 }
    ∧ ∀ (returningLoanId : Option Nat) (lid : Nat),
        returnButtonDisabled "returned" returningLoanId lid = true := by
  obtain ⟨l, hfind, hrd, hr⟩ := returnLoan_ok_inversion cfg s now loanId r1 h1
  subst hr
  dsimp only at hbfind ⊢
  have hlid : l.id = loanId := by
    simpa using List.find?_some hfind
  have hbid : b.id = l.book_id := by
    simpa using List.find?_some hbfind
  have hpl : ∀ x : LoanRow, ((if x.id = loanId then
      { x with return_date := some now,
               fine_amount := some (fineFor cfg now x.expected_return_date) }
    else x).id == loanId) = (x.id == loanId) := by
    intro x
    by_cases hx : x.id = loanId <;> simp [hx]
  have hfindl2 : (s.loans.map fun x =>
      if x.id = loanId then
        { x with return_date := some now,
                 fine_amount := some (fineFor cfg now x.expected_return_date) }
      else x).find? (fun x => x.id == loanId)
      = some { l with return_date := some now,
                      fine_amount := some (fineFor cfg now l.expected_return_date) } := by
    rw [find?_map_pres _ _ hpl s.loans, hfind]
    simp [hlid]
  have hpb : ∀ a : BookRow, ((if a.id = l.book_id then
      { a with available_copies := a.available_copies + 1 } else a).id == l.book_id)
      = (a.id == l.book_id) := by
    intro a
    by_cases ha : a.id = l.book_id <;> simp [ha]
  refine ⟨?_, ?_, ?_⟩
  · rw [returnLoan, hfindl2]
    rfl
  · rw [find?_map_pres _ _ hpb s.books, hbfind]
    simp [hbid]
  · intro rid lid
    simp [returnButtonDisabled]

/-- Witness for C5 at the concrete one-loan state. -/
theorem double_return_rejected_witness :
    returnLoan sampleConfig sampleLoanState 12 5 = Except.ok sampleReturnResult
    ∧ returnLoan sampleConfig sampleReturnResult.state 20 5
        = Except.error EngineError.LoanAlreadyReturned := by
  have h1 : returnLoan sampleConfig sampleLoanState 12 5
      = Except.ok sampleReturnResult := rfl
  exact ⟨h1, (double_return_rejected sampleConfig sampleLoanState 12 20 5
    sampleReturnResult { id := 10, total_copies := 2, available_copies := 1 }
    h1 rfl).1⟩

/-! ## Claim C6 -/

/-- C6 counterexample: the claim says the UI enables the renew action
exactly for loans with status active, but the action-menu button is also
disabled while that loan's renewal request is in flight
(`extendingLoanId === loan.id`): here the status is "active" yet the
button is disabled, so the equivalence fails at this input. -/
theorem renew_enabled_not_exactly_active :
    ¬ ((renewButtonDisabled "active" (some 5) 5 = false)
        ↔ ("active" : String) = "active") := by
  decide

/-- C6 (amended): the engine renews a loan exactly when its lazily computed
status is active, extending `expected_return_date` by the configured loan
period and failing LoanNotActive otherwise; the UI menu enables the renew
action exactly for loans with status active that are not already
mid-renewal. -/
theorem renew_iff_active (cfg : Config) (s : EngineState) (now : Int)
    (loanId : Nat) (l : LoanRow)
    (hfind : s.loans.find? (fun x => x.id == loanId) = some l) :
    ((∃ r, renew cfg s now loanId = Except.ok r
        ∧ r.loan.expected_return_date = l.expected_return_date + cfg.loanPeriod)
      ↔ loanStatusAt now l = LoanStatus.active)
    ∧ (loanStatusAt now l ≠ LoanStatus.active →
        renew cfg s now loanId = Except.error EngineError.LoanNotActive)
    ∧ ∀ (status : String) (extendingLoanId : Option Nat) (lid : Nat),
        renewButtonDisabled status extendingLoanId lid = false
          ↔ (status = "active" ∧ extendingLoanId ≠ some lid) := by
  refine ⟨⟨?_, ?_⟩, ?_, ?_⟩
  · rintro ⟨r, hok, -⟩
    obtain ⟨l2, hfind2, hact, -⟩ := renew_ok_inversion cfg s now loanId r hok
    rw [hfind2] at hfind
    exact (Option.some.inj hfind) ▸ hact
  · intro hact
    refine ⟨{ state :=
                { s with
                  loans := s.loans.map fun x =>
                    if x.id == loanId then
                      { x with expected_return_date :=
                          x.expected_return_date + cfg.loanPeriod }
                    else x }
              loan := { l with expected_return_date :=
                          l.expected_return_date + cfg.loanPeriod }
              invalidatedBooks := [] }, ?_, rfl⟩
    rw [renew, hfind]
    simp [hact]
  · intro hact
    rw [renew, hfind]
    simp [hact]
  · intro status extendingLoanId lid
    simp [renewButtonDisabled]

/-- Witness for C6 at the concrete active loan. -/
theorem renew_iff_active_witness :
    loanStatusAt 0 sampleLoanRow = LoanStatus.active
    ∧ ∃ r, renew sampleConfig sampleLoanState 0 5 = Except.ok r
        ∧ r.loan.expected_return_date
          = sampleLoanRow.expected_return_date + sampleConfig.loanPeriod := by
  refine ⟨by decide, ?_⟩
  exact (renew_iff_active sampleConfig sampleLoanState 0 5 sampleLoanRow
    rfl).1.mpr (by decide)

/-! ## Claim C7 -/

/-- C7: when the member-side checks pass, checkout fails BookUnavailable
exactly when the book's `available_copies` is zero; and the new-loan book
picker excludes every book with zero available copies, keeping only books
whose effective availability is positive. -/
theorem unavailable_iff_zero_copies (cfg : Config) (s : EngineState) (now : Int)
    (memberId bookId : Nat) (b : BookRow)
    (hmem : memberId ∈ s.members)
    (hnoover : ((memberLoans s memberId).any
        fun l => loanStatusAt now l == LoanStatus.overdue) = false)
    (hlim : ((memberLoans s memberId).filter
        fun l => loanStatusAt now l == LoanStatus.active).length < cfg.maxActiveLoans)
    (hfind : s.books.find? (fun bb => bb.id == bookId) = some b) :
    (checkout cfg s now memberId bookId = Except.error EngineError.BookUnavailable
      ↔ b.available_copies = 0)
    ∧ (∀ (books : List Book) (bk : Book), bk ∈ books →
        bk.available_copies = some 0 → bk ∉ loadBooksFilter books)
    ∧ ∀ (books : List Book) (bk : Book), bk ∈ loadBooksFilter books →
        0 < effectiveAvailable bk := by
  have hnle : ¬ (cfg.maxActiveLoans ≤
      ((memberLoans s memberId).filter
        fun l => loanStatusAt now l == LoanStatus.active).length) :=
    Nat.not_le.mpr hlim
  refine ⟨⟨?_, ?_⟩, ?_, ?_⟩
  · intro herr
    by_contra hnz
    rw [checkout, if_pos hmem,
      if_neg (by rw [hnoover]; exact Bool.false_ne_true), if_neg hnle, hfind] at herr
    simp [hnz] at herr
  · intro hz
    rw [checkout, if_pos hmem,
      if_neg (by rw [hnoover]; exact Bool.false_ne_true), if_neg hnle, hfind]
    simp [hz]
  · intro books bk hmem2 hzero hin
    have hkeep := (List.mem_filter.mp hin).2
    rw [effectiveAvailable, hzero] at hkeep
    simp at hkeep
  · intro books bk hin
    simpa using (List.mem_filter.mp hin).2

/-- Witness for C7: the one-copy book is not reported unavailable. -/
theorem unavailable_iff_zero_copies_witness :
    (checkout sampleConfig sampleState 0 1 10
        = Except.error EngineError.BookUnavailable
      ↔ ({ id := 10, total_copies := 1, available_copies := 1 } : BookRow).available_copies = 0) := by
  exact (unavailable_iff_zero_copies sampleConfig sampleState 0 1 10
    { id := 10, total_copies := 1, available_copies := 1 }
    (by decide) rfl (by decide) rfl).1

/-! ## Claim C8 -/

theorem userLookupRequests_all_get (role : Role) (userIds : List Nat) :
    ∀ q ∈ userLookupRequests role userIds, q.method = "GET" := by
  intro q hq
  cases role with
  | admin =>
    by_cases he : userIds.isEmpty = true
    · simp [userLookupRequests, he] at hq
    · simp [userLookupRequests, he] at hq
      rw [hq]
  | librarian =>
    by_cases he : userIds.isEmpty = true
    · simp [userLookupRequests, he] at hq
    · simp [userLookupRequests, he] at hq
      rw [hq]
  | user => cases hq

theorem fetchLoansRequests_all_get (role : Role) (fetched : List Loan) :
    ∀ q ∈ fetchLoansRequests role fetched, q.method = "GET" := by
  intro q hq
  unfold fetchLoansRequests at hq
  rcases List.mem_cons.mp hq with rfl | hq2
  · rfl
  rcases List.mem_append.mp hq2 with hq3 | hq3
  · obtain ⟨id, -, rfl⟩ := List.mem_map.mp hq3
    rfl
  · exact userLookupRequests_all_get role _ q hq3

/-- C8 counterexample: the claim says extending a loan calls no book
endpoint, but the success path of `handleExtendLoan` refreshes the loan
list, and that refresh issues a GET of /books/{id} through
`booksApi.getById` — a book endpoint. -/
theorem extend_flow_calls_book_endpoint :
    (handleExtendLoanRequests Role.user 7 [sampleFetchedLoan]).any
      isBookEndpoint = true := by
  decide

/-- C8 (amended): renewal changes only the loan's expected return date —
book stock untouched, no cache invalidation — and the client's extend flow
issues exactly one POST, to /loans/{loanId}/extend; every other request of
the flow (the refresh GETs of /loans/, /books/{id} and the user lookup) is
a read-only GET, so no request mutates book stock. -/
theorem renewal_frame_effect (cfg : Config) (s : EngineState) (now : Int)
    (loanId : Nat) (r : OpResult) (l : LoanRow)
    (hfind : s.loans.find? (fun x => x.id == loanId) = some l)
    (h : renew cfg s now loanId = Except.ok r) :
    r.state.books = s.books
    ∧ r.invalidatedBooks = []
    ∧ r.loan = { l with expected_return_date := l.expected_return_date + cfg.loanPeriod }
    ∧ (∀ x ∈ r.state.loans, ∃ x0 ∈ s.loans, x.id = x0.id ∧ x.user_id = x0.user_id
        ∧ x.book_id = x0.book_id ∧ x.loan_date = x0.loan_date
        ∧ x.return_date = x0.return_date ∧ x.fine_amount = x0.fine_amount)
    ∧ ∀ (role : Role) (lid : Nat) (refreshed : List Loan),
        (handleExtendLoanRequests role lid refreshed).filter
            (fun q => q.method == "POST") = [extendRequest lid]
        ∧ ∀ q ∈ handleExtendLoanRequests role lid refreshed,
            q ≠ extendRequest lid → q.method = "GET" := by
  obtain ⟨l2, hfind2, hact, hr⟩ := renew_ok_inversion cfg s now loanId r h
  have hl2 : l2 = l := by
    rw [hfind2] at hfind
    exact Option.some.inj hfind
  subst hl2
  subst hr
  refine ⟨rfl, rfl, rfl, ?_, ?_⟩
  · intro x hx
    obtain ⟨x0, hx0, rfl⟩ := List.mem_map.mp hx
    refine ⟨x0, hx0, ?_⟩
    by_cases hxi : x0.id = loanId
    · rw [if_pos hxi]
      exact ⟨rfl, rfl, rfl, rfl, rfl, rfl⟩
    · rw [if_neg hxi]
      exact ⟨rfl, rfl, rfl, rfl, rfl, rfl⟩
  · intro role lid refreshed
    have hget := fetchLoansRequests_all_get role refreshed
    constructor
    · have hnil : (fetchLoansRequests role refreshed).filter
          (fun q => q.method == "POST") = [] := by
        rw [List.filter_eq_nil_iff]
        intro q hq
        rw [hget q hq]
        decide
      unfold handleExtendLoanRequests
      rw [List.filter_cons_of_pos (by rfl), hnil]
    · intro q hq hne
      unfold handleExtendLoanRequests at hq
      rcases List.mem_cons.mp hq with rfl | hq2
      · exact absurd rfl hne
      · exact hget q hq2

/-- Witness for C8 at the concrete renewal. -/
theorem renewal_frame_effect_witness :
    renew sampleConfig sampleLoanState 0 5 = Except.ok sampleRenewResult
    ∧ sampleRenewResult.state.books = sampleLoanState.books
    ∧ sampleRenewResult.invalidatedBooks = [] := by
  have h : renew sampleConfig sampleLoanState 0 5
      = Except.ok sampleRenewResult := rfl
  have hr := renewal_frame_effect sampleConfig sampleLoanState 0 5
    sampleRenewResult sampleLoanRow rfl h
  exact ⟨h, hr.1, hr.2.1⟩

end LibSys
